import Mathlib

/-!
# Verification of the concurrent auxiliary runtime (`double_auxiliary.py`)

Shallow embedding of the worker-thread auxiliary base
(`DoubleThreadAuxiliary`), the simple channel auxiliary (`ComAux`) and the
proxy/broker auxiliary (`ProxyAuxiliary`) from
`src/pykiso/interfaces/double_auxiliary.py`, together with theorems settling
the specification claims about them.

Modelling conventions:
* Python queues are Lean lists, head = front of the queue; `put` appends at
  the tail, `get` takes the head.
* Python exceptions are modelled with `Except PyError`; a function that can
  raise returns `Except`, a total function cannot raise.
* A channel object's identity is its position in the proxy's
  `proxy_channels` tuple (Python compares channel objects by identity in
  `_dispatch_command`; the tuple holds distinct objects).
* Payloads are abstracted as `Nat`; the dictionaries travelling through the
  proxy queues are reduced to the fields the code reads (`"msg"`).
-/

namespace Pykiso

/-- The Python exceptions that the embedded code can raise.
`nameError` records the undefined global name (`ConfigRegistry` is used by
`ProxyAuxiliary.get_proxy_con` but never imported in the module);
`attributeError` records the missing attribute (`rx_thread` exists only
after `create_instance` spawned the workers). -/
inductive PyError
  | auxiliaryCreationError (name : String)
  | notImplementedError (what : String)
  | nameError (missing : String)
  | attributeError (attr : String)
deriving DecidableEq, Repr

/-! ## Proxy data model

`ProxyAuxiliary` holds a tuple `proxy_channels`; each proxy connector has a
`queue_in` (commands from its subscriber, pairs of positional `args` and
keyword arguments) and a `queue_out` (traffic pushed to the subscriber).
The code only ever reads the `"msg"` entry of the keyword arguments. -/

/-- The keyword-argument dictionary travelling through the proxy queues,
reduced to the single field the code reads: `kwargs.get("msg")`. -/
structure KwArgs where
  msg : Option Nat
deriving DecidableEq, Repr

/-- One element of a proxy connector's `queue_in`: the `(args, kwargs)` pair
stored by the subscriber's send path and consumed by `_run_command`. -/
structure ProxyCmd where
  args : List Nat
  kwargs : KwArgs
deriving DecidableEq, Repr

/-- The queue pair of one bound channel (proxy connector). -/
structure ChannelQueues where
  queue_in : List ProxyCmd
  queue_out : List KwArgs
deriving DecidableEq, Repr

/-- Model of `queue_out.put(kw)` on one bound channel. -/
def pushOut (kw : KwArgs) (c : ChannelQueues) : ChannelQueues :=
  { c with queue_out := c.queue_out ++ [kw] }

/-- Helper for `dispatchCommand`: walk the channel list, `i` being the index
of the first element, pushing `kw` on every channel except index `sender`. -/
def dispatchAux (sender : Nat) (kw : KwArgs) : Nat → List ChannelQueues → List ChannelQueues
  | _, [] => []
  | i, c :: cs => (if i = sender then c else pushOut kw c) :: dispatchAux sender kw (i + 1) cs

/-- Embedding of `ProxyAuxiliary._dispatch_command(con_use, **kwargs)`
(double_auxiliary.py lines 521-533): for every `conn` in `proxy_channels`
with `conn != con_use` (object identity, i.e. a different tuple position),
`conn.queue_out.put(kwargs)`. -/
def dispatchCommand (chans : List ChannelQueues) (sender : Nat) (kw : KwArgs) : List ChannelQueues :=
  dispatchAux sender kw 0 chans

/-- Embedding of `ProxyAuxiliary._receive_message` (double_auxiliary.py lines 539-561):
one `cc_receive` from the physical transport yields `recv` (the exception
path leaves all queues untouched and is not modelled); if `recv.get("msg")`
is not `None`, the whole `recv` dict is put on *every* bound channel's
`queue_out`; otherwise nothing is pushed. -/
def receiveMessageProxy (chans : List ChannelQueues) (recv : KwArgs) : List ChannelQueues :=
  match recv.msg with
  | some _ => chans.map (pushOut recv)
  | none => chans

@[simp]
theorem dispatchAux_length (sender : Nat) (kw : KwArgs) (i : Nat) (cs : List ChannelQueues) :
    (dispatchAux sender kw i cs).length = cs.length := by
  induction cs generalizing i with
  | nil => rfl
  | cons c cs ih => simp [dispatchAux, ih]

theorem dispatchAux_getElem? (sender : Nat) (kw : KwArgs) (i : Nat) (cs : List ChannelQueues)
    (j : Nat) :
    (dispatchAux sender kw i cs)[j]? =
      if i + j = sender then cs[j]? else cs[j]?.map (pushOut kw) := by
  induction cs generalizing i j with
  | nil => simp [dispatchAux]
  | cons c cs ih =>
    cases j with
    | zero =>
      simp only [dispatchAux, List.getElem?_cons_zero, Nat.add_zero]
      by_cases h : i = sender <;> simp [h]
    | succ j =>
      have h := ih (i + 1) j
      simp only [dispatchAux, List.getElem?_cons_succ]
      rw [h]
      have harith : i + 1 + j = i + (j + 1) := by omega
      rw [harith]

@[simp]
theorem dispatchCommand_length (chans : List ChannelQueues) (sender : Nat) (kw : KwArgs) :
    (dispatchCommand chans sender kw).length = chans.length := by
  simp [dispatchCommand]

theorem dispatchCommand_getElem? (chans : List ChannelQueues) (sender : Nat) (kw : KwArgs)
    (j : Nat) :
    (dispatchCommand chans sender kw)[j]? =
      if j = sender then chans[j]? else chans[j]?.map (pushOut kw) := by
  have h := dispatchAux_getElem? sender kw 0 chans j
  simpa [dispatchCommand] using h

/-- C1. When the outbound relay dequeues a message from the bound
channel at position `sender` and dispatches it, every *other* bound
channel's `queue_out` receives the message appended at its tail, while the
sender's own queue pair is left exactly as it was (no self-echo) — for
every bound-channel list and every dispatched message. -/
theorem proxy_dispatch_excludes_sender (chans : List ChannelQueues) (sender : Nat)
    (kw : KwArgs) (j : Nat) :
    (dispatchCommand chans sender kw)[j]? =
      if j = sender then chans[j]?
      else chans[j]?.map (fun c => { c with queue_out := c.queue_out ++ [kw] }) := by
  rw [dispatchCommand_getElem? chans sender kw j]
  rfl

/-- C2. The proxy's inbound relay: if the receive result carries a
payload (`msg` present), the result is pushed onto the outbound queue of
*every* bound channel (no subscriber excluded, inbound queues untouched);
a receive that yields no payload pushes nothing at all. -/
theorem proxy_receive_broadcasts_to_all (chans : List ChannelQueues) (recv : KwArgs) (j : Nat) :
    (receiveMessageProxy chans recv)[j]? =
      if recv.msg.isSome then
        chans[j]?.map (fun c => { c with queue_out := c.queue_out ++ [recv] })
      else chans[j]? := by
  cases h : recv.msg with
  | none => simp [receiveMessageProxy, h]
  | some m =>
    simp only [receiveMessageProxy, h, Option.isSome_some, if_pos]
    rw [List.getElem?_map]
    rfl

/-! ## The proxy's outbound relay pass (`_run_command`, lines 503-519)

`_transmit_task` (lines 572-578) repeatedly calls `_run_command`, which
makes one pass over `proxy_channels` in tuple order: for each connector
whose `queue_in` is non-empty it dequeues one `(args, kwargs)` pair,
dispatches it to the other connectors when `kwargs.get("msg")` is present,
and always forwards it to the physical transport via `cc_send`.  `sent`
records the `cc_send` calls in order. -/

/-- Proxy state for one relay pass: the bound channels (in construction
order) and the log of `cc_send` calls on the physical transport. -/
structure ProxyState where
  chans : List ChannelQueues
  sent : List ProxyCmd
deriving DecidableEq, Repr

/-- The body of the `for conn in self.proxy_channels` loop of
`ProxyAuxiliary._run_command`, at channel position `i`: if `queue_in` is
non-empty, dequeue one command, dispatch it to the other channels when its
`msg` field is present, and `cc_send` it on the physical transport. -/
def proxyStepChan (s : ProxyState) (i : Nat) (c : ChannelQueues) : ProxyState :=
  match c.queue_in with
  | [] => s
  | cmd :: rest =>
    let chans1 := s.chans.set i { c with queue_in := rest }
    let chans2 :=
      match cmd.kwargs.msg with
      | some _ => dispatchCommand chans1 i cmd.kwargs
      | none => chans1
    { chans := chans2, sent := s.sent ++ [cmd] }

def proxyStep (s : ProxyState) (i : Nat) : ProxyState :=
  match s.chans[i]? with
  | none => s
  | some c => proxyStepChan s i c

/-- Iterate `proxyStep` over positions `i, i+1, ...` for `fuel` steps. -/
def proxyPassAux : Nat → Nat → ProxyState → ProxyState
  | 0, _, s => s
  | fuel + 1, i, s => proxyPassAux fuel (i + 1) (proxyStep s i)

/-- One full pass of `ProxyAuxiliary._run_command`: the loop body at every
position of `proxy_channels`, in construction order. -/
def proxyRunCommand (s : ProxyState) : ProxyState :=
  proxyPassAux s.chans.length 0 s

/-- The inbound queue of the channel at position `j` (`none` when out of
range). -/
def qin? (s : ProxyState) (j : Nat) : Option (List ProxyCmd) :=
  s.chans[j]?.map (fun c => c.queue_in)

/-- Flatten the head of an optional queue. -/
def headOf : Option (List ProxyCmd) → List ProxyCmd
  | none => []
  | some q => q.head?.toList

theorem dispatchCommand_qin (cs : List ChannelQueues) (sn : Nat) (kw : KwArgs) (j : Nat) :
    (dispatchCommand cs sn kw)[j]?.map (fun c => c.queue_in)
      = cs[j]?.map (fun c => c.queue_in) := by
  rw [dispatchCommand_getElem?]
  by_cases h : j = sn
  · rw [if_pos h]
  · rw [if_neg h]
    cases cs[j]? <;> rfl

theorem proxyStep_of_isNone {s : ProxyState} {i : Nat} (hc : s.chans[i]? = none) :
    proxyStep s i = s := by
  unfold proxyStep
  rw [hc]

theorem proxyStep_of_empty {s : ProxyState} {i : Nat} {c : ChannelQueues}
    (hc : s.chans[i]? = some c) (hq : c.queue_in = []) :
    proxyStep s i = s := by
  unfold proxyStep
  rw [hc]
  show proxyStepChan s i c = s
  unfold proxyStepChan
  rw [hq]

theorem proxyStep_of_cons {s : ProxyState} {i : Nat} {c : ChannelQueues}
    {cmd : ProxyCmd} {rest : List ProxyCmd}
    (hc : s.chans[i]? = some c) (hq : c.queue_in = cmd :: rest) :
    proxyStep s i =
      { chans :=
          match cmd.kwargs.msg with
          | some _ => dispatchCommand (s.chans.set i { c with queue_in := rest }) i cmd.kwargs
          | none => s.chans.set i { c with queue_in := rest },
        sent := s.sent ++ [cmd] } := by
  unfold proxyStep
  rw [hc]
  show proxyStepChan s i c = _
  unfold proxyStepChan
  rw [hq]

@[simp]
theorem proxyStep_length (s : ProxyState) (i : Nat) :
    (proxyStep s i).chans.length = s.chans.length := by
  cases hc : s.chans[i]? with
  | none => rw [proxyStep_of_isNone hc]
  | some c =>
    cases hq : c.queue_in with
    | nil => rw [proxyStep_of_empty hc hq]
    | cons cmd rest =>
      rw [proxyStep_of_cons hc hq]
      cases hm : cmd.kwargs.msg <;> simp [hm]

theorem proxyStep_qin (s : ProxyState) (i j : Nat) :
    qin? (proxyStep s i) j =
      if j = i then (qin? s j).map List.tail else qin? s j := by
  cases hc : s.chans[i]? with
  | none =>
    rw [proxyStep_of_isNone hc]
    by_cases h : j = i
    · subst h
      simp [qin?, hc]
    · simp [h]
  | some c =>
    cases hq : c.queue_in with
    | nil =>
      rw [proxyStep_of_empty hc hq]
      by_cases h : j = i
      · subst h
        simp [qin?, hc, hq]
      · simp [h]
    | cons cmd rest =>
      rw [proxyStep_of_cons hc hq]
      have hset : ∀ k : Nat,
          (s.chans.set i { c with queue_in := rest })[k]?.map (fun x => x.queue_in)
            = if k = i then (qin? s k).map List.tail else qin? s k := by
        intro k
        by_cases h : k = i
        · subst h
          have hik : k < s.chans.length := (List.getElem?_eq_some.mp hc).1
          rw [List.getElem?_set_eq_of_lt _ hik, if_pos rfl]
          simp [qin?, hc, hq]
        · rw [List.getElem?_set_ne (by omega), if_neg h]
          rfl
      cases hm : cmd.kwargs.msg with
      | none =>
        simp only [hm]
        exact hset j
      | some m =>
        simp only [hm]
        show (dispatchCommand (s.chans.set i { c with queue_in := rest }) i cmd.kwargs)[j]?.map
            (fun c => c.queue_in) = _
        rw [dispatchCommand_qin]
        exact hset j

theorem proxyStep_sent (s : ProxyState) (i : Nat) :
    (proxyStep s i).sent = s.sent ++ headOf (qin? s i) := by
  cases hc : s.chans[i]? with
  | none =>
    rw [proxyStep_of_isNone hc]
    simp [qin?, hc, headOf]
  | some c =>
    cases hq : c.queue_in with
    | nil =>
      rw [proxyStep_of_empty hc hq]
      simp [qin?, hc, hq, headOf]
    | cons cmd rest =>
      rw [proxyStep_of_cons hc hq]
      simp [qin?, hc, hq, headOf]

theorem proxyPassAux_qin (fuel : Nat) :
    ∀ (i : Nat) (s : ProxyState) (j : Nat),
      qin? (proxyPassAux fuel i s) j =
        if i ≤ j ∧ j < i + fuel then (qin? s j).map List.tail else qin? s j := by
  induction fuel with
  | zero =>
    intro i s j
    have h : ¬ (i ≤ j ∧ j < i + 0) := by omega
    show qin? s j = _
    rw [if_neg h]
  | succ f ih =>
    intro i s j
    show qin? (proxyPassAux f (i + 1) (proxyStep s i)) j = _
    rw [ih (i + 1) (proxyStep s i) j, proxyStep_qin s i j]
    by_cases hji : j = i
    · subst hji
      have h1 : ¬ (j + 1 ≤ j ∧ j < j + 1 + f) := by omega
      have h2 : j ≤ j ∧ j < j + (f + 1) := by omega
      simp [h1, h2]
    · by_cases h1 : i + 1 ≤ j ∧ j < i + 1 + f
      · have h2 : i ≤ j ∧ j < i + (f + 1) := by omega
        simp [h1, h2, hji]
      · have h2 : ¬ (i ≤ j ∧ j < i + (f + 1)) := by omega
        simp [h1, h2, hji]

/-- The messages one pass will dequeue, starting at position `i` with
`fuel` positions to go: the head of every non-empty inbound queue, in
position order. -/
def plannedSent : Nat → Nat → ProxyState → List ProxyCmd
  | 0, _, _ => []
  | fuel + 1, i, s => headOf (qin? s i) ++ plannedSent fuel (i + 1) s

theorem plannedSent_congr (fuel : Nat) :
    ∀ (i : Nat) (s1 s2 : ProxyState),
      (∀ j, i ≤ j → qin? s1 j = qin? s2 j) →
      plannedSent fuel i s1 = plannedSent fuel i s2 := by
  induction fuel with
  | zero => intro i s1 s2 _; rfl
  | succ f ih =>
    intro i s1 s2 h
    show headOf (qin? s1 i) ++ plannedSent f (i + 1) s1 = _
    rw [h i (Nat.le_refl i), ih (i + 1) s1 s2 (fun j hj => h j (by omega))]
    rfl

theorem proxyPassAux_sent (fuel : Nat) :
    ∀ (i : Nat) (s : ProxyState),
      (proxyPassAux fuel i s).sent = s.sent ++ plannedSent fuel i s := by
  induction fuel with
  | zero => intro i s; simp [proxyPassAux, plannedSent]
  | succ f ih =>
    intro i s
    show (proxyPassAux f (i + 1) (proxyStep s i)).sent = _
    rw [ih (i + 1) (proxyStep s i), proxyStep_sent s i]
    rw [plannedSent_congr f (i + 1) (proxyStep s i) s
      (fun j hj => by rw [proxyStep_qin]; simp [show j ≠ i by omega])]
    show _ = s.sent ++ (headOf (qin? s i) ++ plannedSent f (i + 1) s)
    rw [List.append_assoc]

theorem plannedSent_out_of_range (fuel : Nat) :
    ∀ (i : Nat) (s : ProxyState), s.chans.length ≤ i → plannedSent fuel i s = [] := by
  induction fuel with
  | zero => intro i s _; rfl
  | succ f ih =>
    intro i s h
    show headOf (qin? s i) ++ plannedSent f (i + 1) s = []
    have : qin? s i = none := by
      simp [qin?, List.getElem?_eq_none h]
    rw [this, ih (i + 1) s (by omega)]
    rfl

theorem plannedSent_eq_filterMap (fuel : Nat) :
    ∀ (i : Nat) (s : ProxyState),
      plannedSent fuel i s =
        ((s.chans.drop i).take fuel).filterMap (fun c => c.queue_in.head?) := by
  induction fuel with
  | zero => intro i s; simp [plannedSent]
  | succ f ih =>
    intro i s
    by_cases h : i < s.chans.length
    · show headOf (qin? s i) ++ plannedSent f (i + 1) s = _
      rw [List.drop_eq_getElem_cons h, List.take_succ_cons, List.filterMap_cons]
      have hq : qin? s i = some (s.chans[i]).queue_in := by
        simp [qin?, List.getElem?_eq_getElem h]
      rw [hq, ih (i + 1) s]
      cases hh : (s.chans[i]).queue_in.head? <;> simp [headOf, hh]
    · rw [plannedSent_out_of_range (f + 1) i s (by omega)]
      rw [List.drop_eq_nil_of_le (by omega)]
      simp

/-- C8. One pass of the proxy's outbound relay visits the bound
channels in the fixed order given at construction: the physical-transport
send log extends exactly by the heads of the non-empty inbound queues, in
channel order (so each non-empty queue yields exactly one dequeued message
per pass), and afterwards every channel's inbound queue has lost exactly
its head (empty queues are untouched) — for every configuration of queue
contents. -/
theorem proxy_pass_services_queues_in_order (s : ProxyState) :
    (proxyRunCommand s).sent = s.sent ++ s.chans.filterMap (fun c => c.queue_in.head?) ∧
    ∀ j : Nat, (proxyRunCommand s).chans[j]?.map (fun c => c.queue_in)
      = s.chans[j]?.map (fun c => c.queue_in.tail) := by
  constructor
  · rw [proxyRunCommand, proxyPassAux_sent, plannedSent_eq_filterMap]
    simp
  · intro j
    have h := proxyPassAux_qin s.chans.length 0 s j
    rw [proxyRunCommand]
    by_cases hj : j < s.chans.length
    · have hcond : 0 ≤ j ∧ j < 0 + s.chans.length := by omega
      rw [show qin? (proxyPassAux s.chans.length 0 s) j
            = (proxyPassAux s.chans.length 0 s).chans[j]?.map (fun c => c.queue_in) from rfl] at h
      rw [h, if_pos hcond]
      simp [qin?, Option.map_map]
      rfl
    · have hcond : ¬ (0 ≤ j ∧ j < 0 + s.chans.length) := by omega
      rw [show qin? (proxyPassAux s.chans.length 0 s) j
            = (proxyPassAux s.chans.length 0 s).chans[j]?.map (fun c => c.queue_in) from rfl] at h
      rw [h, if_neg hcond]
      have : s.chans[j]? = none := List.getElem?_eq_none (by omega)
      simp [qin?, this]

/-! ## The worker-thread auxiliary base (`DoubleThreadAuxiliary`)

`run_command` (lines 115-136) enqueues `(cmd_message, cmd_data)` on
`queue_in` and then waits on the reply sink (`used_queue`, the queue set by
`associat_tx_queue`, `queue_tx` by default); a `queue.Empty` on the wait is
caught, logged, and turned into a `None` result.  `_transmit_task`
(lines 138-150) dequeues from `queue_in`, acknowledges `"stop"` with `True`
on the sink and exits, and otherwise executes the command through the
`_run_command` hook, pushing any non-`None` reply onto the sink. -/

/-- A command submitted through `run_command`: `cmd_message` (a string tag,
e.g. `"send"` or `"stop"`) together with its optional payload. -/
structure Command where
  msg : String
  data : Option Nat
deriving DecidableEq, Repr

/-- A reply on the reply sink: the `True` acknowledgment pushed for the
`Stop` command, or a payload produced by the `_run_command` hook. -/
inductive Reply
  | ack
  | payload (n : Nat)
deriving DecidableEq, Repr

/-- The queues of a `DoubleThreadAuxiliary`: the command queue `queue_in`
and the reply sink `used_queue`. -/
structure BaseState where
  queue_in : List Command
  used_queue : List Reply
deriving DecidableEq, Repr

/-- Embedding of `DoubleThreadAuxiliary.run_command` (lines 115-136): under the lock,
put `(cmd_message, cmd_data)` on `queue_in`, then `used_queue.get(blocking,
timeout_in_s)`.  `arrivals` are the replies pushed onto the sink by the
command worker during a blocking wait; `queue.Empty` (sink empty and, when
blocking, nothing arriving within the timeout) is caught and yields `None`.
The function is total up to `Except`: the only raisable exception is caught
inside, so the result is always `Except.ok`.  Timeouts are modelled as
nonnegative seconds, matching the `timeout_in_s: int = 5` call sites. -/
def runCommand (s : BaseState) (cmd : String) (data : Option Nat)
    (blocking : Bool) (_timeout_in_s : Nat) (arrivals : List Reply) :
    Except PyError (Option Reply × BaseState) :=
  let s1 : BaseState := { s with queue_in := s.queue_in ++ [⟨cmd, data⟩] }
  let avail : List Reply := if blocking then s1.used_queue ++ arrivals else s1.used_queue
  match avail with
  | [] => .ok (none, { s1 with used_queue := [] })
  | r :: rest => .ok (some r, { s1 with used_queue := rest })

/-- One iteration of `DoubleThreadAuxiliary._transmit_task` (lines
138-150), on a non-empty `queue_in` (on an empty queue the worker blocks in
`queue_in.get()`, modelled as no observable step): dequeue `(cmd, data)`;
if `cmd == "stop"`, put `True` on the sink and break; otherwise run the
`_run_command` hook (`execute`) and put its reply on the sink when it is
not `None`.  The returned `Bool` is whether the loop broke. -/
def transmitTaskStep (execute : String → Option Nat → Option Reply) (s : BaseState) :
    BaseState × Bool :=
  match s.queue_in with
  | [] => (s, false)
  | c :: rest =>
    if c.msg = "stop" then
      ({ queue_in := rest, used_queue := s.used_queue ++ [Reply.ack] }, true)
    else
      match execute c.msg c.data with
      | some r => ({ queue_in := rest, used_queue := s.used_queue ++ [r] }, false)
      | none => ({ queue_in := rest, used_queue := s.used_queue }, false)

/-- C5. `run_command` with `blocking` set and any (nonnegative)
timeout: when no reply is on the sink and none arrives within the wait, the
call returns `None` — an ordinary value, not an exception (the result is
`Except.ok`; the `queue.Empty` raised by the sink read is caught inside).
The submitted command stays enqueued on `queue_in`. -/
theorem run_command_timeout_returns_none (s : BaseState) (cmd : String) (data : Option Nat)
    (timeout_in_s : Nat) (hsink : s.used_queue = []) :
    runCommand s cmd data true timeout_in_s []
      = .ok (none, { queue_in := s.queue_in ++ [⟨cmd, data⟩], used_queue := [] }) := by
  simp [runCommand, hsink]

/-- Witness for `run_command_timeout_returns_none` at a concrete state. -/
theorem run_command_timeout_returns_none_witness :
    (BaseState.mk [] []).used_queue = [] ∧
    runCommand ⟨[], []⟩ "send" (some 3) true 5 []
      = .ok (none, { queue_in := [⟨"send", some 3⟩], used_queue := [] }) :=
  ⟨rfl, run_command_timeout_returns_none ⟨[], []⟩ "send" (some 3) 5 rfl⟩

/-- C10. A `run_command` that times out leaves the command enqueued:
starting from idle queues, the caller's `run_command` returns `None`
while `queue_in` still holds the `(command, data)` pair (nothing removes or
cancels it); the next `_transmit_task` iteration then consumes it, executes
it, and pushes its non-`None` reply onto the reply sink — after the caller
has already returned. -/
theorem run_command_timeout_leaves_command_enqueued
    (cmd : String) (data : Option Nat) (timeout_in_s : Nat)
    (execute : String → Option Nat → Option Reply) (r : Reply)
    (hstop : cmd ≠ "stop") (hexec : execute cmd data = some r) :
    runCommand ⟨[], []⟩ cmd data true timeout_in_s []
      = .ok (none, ⟨[⟨cmd, data⟩], []⟩) ∧
    transmitTaskStep execute ⟨[⟨cmd, data⟩], []⟩ = (⟨[], [r]⟩, false) := by
  constructor
  · simp [runCommand]
  · simp [transmitTaskStep, hstop, hexec]

/-- Witness for `run_command_timeout_leaves_command_enqueued` at a concrete
command and hook. -/
theorem run_command_timeout_leaves_command_enqueued_witness :
    ("send" ≠ "stop") ∧
    ((fun (_ : String) (d : Option Nat) => d.map Reply.payload) "send" (some 4)
       = some (Reply.payload 4)) ∧
    (runCommand ⟨[], []⟩ "send" (some 4) true 5 []
       = .ok (none, ⟨[⟨"send", some 4⟩], []⟩) ∧
     transmitTaskStep (fun _ d => d.map Reply.payload) ⟨[⟨"send", some 4⟩], []⟩
       = (⟨[], [Reply.payload 4]⟩, false)) :=
  ⟨by decide, rfl,
    run_command_timeout_leaves_command_enqueued "send" (some 4) 5
      (fun _ d => d.map Reply.payload) (Reply.payload 4) (by decide) rfl⟩

/-! ## `DoubleThreadAuxiliary.stop` (lines 101-110)

The source order is:
```
stopped = self.run_command(cmd_message="stop")   # enqueue Stop, wait reply
self.stop_rx.set()
self.stop_tx.set()
...
self.rx_thread.join()
self.tx_thread.join()
```
so the `Stop` command is submitted (and its acknowledgment awaited)
*before* either stop flag is set, and the joins come last. -/

/-- The externally observable actions of `stop()`, in execution order. -/
inductive StopEvent
  | submitStop
  | setStopRx
  | setStopTx
  | joinRx
  | joinTx
deriving DecidableEq, Repr

/-- The flags and join state touched by `stop()`. -/
structure StopState where
  base : BaseState
  stop_rx : Bool
  stop_tx : Bool
  rx_joined : Bool
  tx_joined : Bool
deriving DecidableEq, Repr

/-- Embedding of `DoubleThreadAuxiliary.stop` (lines 101-110), as a state transformer
emitting its action trace: first `run_command("stop")` (which puts the
`Stop` command on `queue_in` and waits on the reply sink; the reply's
value only feeds a log line), then `stop_rx.set()`, then `stop_tx.set()`,
then `rx_thread.join()`, then `tx_thread.join()`. -/
def stopTrace (s : StopState) : StopState × List StopEvent :=
  let s1 := { s with base := { s.base with queue_in := s.base.queue_in ++ [Command.mk "stop" none] } }
  let s2 := { s1 with stop_rx := true }
  let s3 := { s2 with stop_tx := true }
  let s4 := { s3 with rx_joined := true }
  let s5 := { s4 with tx_joined := true }
  (s5, [StopEvent.submitStop, StopEvent.setStopRx, StopEvent.setStopTx,
        StopEvent.joinRx, StopEvent.joinTx])

/-- C3, counterexample. The claim says `stop()` sets both stop flags
*before* submitting the `Stop` command.  In the code the `run_command`
submission is the very first action, so neither flag-set precedes it. -/
theorem stop_flags_not_set_before_submit :
    ¬ ((stopTrace ⟨⟨[], []⟩, false, false, false, false⟩).2.indexOf StopEvent.setStopRx
          < (stopTrace ⟨⟨[], []⟩, false, false, false, false⟩).2.indexOf StopEvent.submitStop
        ∧ (stopTrace ⟨⟨[], []⟩, false, false, false, false⟩).2.indexOf StopEvent.setStopTx
          < (stopTrace ⟨⟨[], []⟩, false, false, false, false⟩).2.indexOf StopEvent.submitStop) := by
  decide

/-- C3, amended. `stop()` performs its steps in this order: first
submit the `Stop` command on the command queue via `run_command` (waiting
for the acknowledgment), then set both stop flags, then join both worker
threads; the `Stop` command is appended to `queue_in` and both flags end
up set. -/
theorem stop_submits_then_flags_then_joins (s : StopState) :
    (stopTrace s).2 = [StopEvent.submitStop, StopEvent.setStopRx, StopEvent.setStopTx,
        StopEvent.joinRx, StopEvent.joinTx] ∧
    (stopTrace s).1.base.queue_in = s.base.queue_in ++ [Command.mk "stop" none] ∧
    (stopTrace s).1.stop_rx = true ∧ (stopTrace s).1.stop_tx = true ∧
    (stopTrace s).1.rx_joined = true ∧ (stopTrace s).1.tx_joined = true :=
  ⟨rfl, rfl, rfl, rfl, rfl, rfl⟩

/-! ## Lifecycle state (`create_instance` / `delete_instance` / `stop`)

`create_instance` (lines 76-89) runs the `_create_auxiliary_instance` hook
under the lock, raises `AuxiliaryCreationError` when it reports failure,
and otherwise spawns both worker threads and sets `is_instance = True`.
`delete_instance` (lines 91-99) runs `_delete_auxiliary_instance` (closes
the transport; failures only logged) and always clears `is_instance` — it
does not touch the worker threads.  `stop` (lines 101-110) terminates and
joins both workers but touches neither `is_instance` nor the transport;
joining requires `rx_thread`/`tx_thread` to exist, i.e. `create_instance`
to have spawned them at least once. -/

/-- The lifecycle-relevant state of one auxiliary: the `is_instance` flag,
liveness of the two workers, whether the transport is open, and whether
the `rx_thread`/`tx_thread` attributes exist (they are only assigned
inside `create_instance`). -/
structure AuxLife where
  is_instance : Bool
  rx_alive : Bool
  tx_alive : Bool
  transport_open : Bool
  threads_spawned : Bool
deriving DecidableEq, Repr

/-- The public lifecycle operations: a `create_instance` whose hook
succeeds, a `delete_instance` (transport close succeeds), and a `stop`. -/
inductive LifeOp
  | createOk
  | deleteOp
  | stopOp
deriving DecidableEq, Repr

/-- One public lifecycle call.  `createOk`: hook opens the transport, both
workers are spawned, `is_instance := True`.  `deleteOp`: transport closed,
`is_instance := False`, workers untouched.  `stopOp`: both workers exit and
are joined, `is_instance` and the transport untouched; on an instance that
never spawned its workers the `rx_thread.join()` raises `AttributeError`. -/
def applyLifeOp (s : AuxLife) : LifeOp → Except PyError AuxLife
  | .createOk => .ok ⟨true, true, true, true, true⟩
  | .deleteOp => .ok { s with is_instance := false, transport_open := false }
  | .stopOp =>
    if s.threads_spawned then .ok { s with rx_alive := false, tx_alive := false }
    else .error (.attributeError "rx_thread")

/-- Run a sequence of public lifecycle calls from a given state, stopping
at the first uncaught exception. -/
def runLifeOps (s : AuxLife) : List LifeOp → Except PyError AuxLife
  | [] => .ok s
  | op :: ops =>
    match applyLifeOp s op with
    | .ok s' => runLifeOps s' ops
    | .error e => .error e

/-- A freshly constructed auxiliary: not an instance, no workers, no open
transport. -/
def auxFresh : AuxLife := ⟨false, false, false, false, false⟩

/-- The spec-side equivalence of claim C9, following the spec's words:
`is_instance` is true iff both worker threads are alive and the underlying
transport is open. -/
def specInstanceEquiv (s : AuxLife) : Bool :=
  s.is_instance == (s.rx_alive && s.tx_alive && s.transport_open)

/-- C9, counterexample. After `create_instance` followed by `stop()`,
`is_instance` is still true while both workers are dead (and the transport
is still open): `stop()` does not preserve the claimed equivalence. -/
theorem is_instance_equiv_broken_by_stop :
    runLifeOps auxFresh [LifeOp.createOk, LifeOp.stopOp]
      = .ok ⟨true, false, false, true, true⟩ ∧
    specInstanceEquiv ⟨true, false, false, true, true⟩ = false :=
  ⟨rfl, rfl⟩

/-- What `is_instance` actually tracks: the last `create_instance` /
`delete_instance` bracket (`stop` leaves it alone). -/
def instanceBracket (b : Bool) : List LifeOp → Bool
  | [] => b
  | .createOk :: ops => instanceBracket true ops
  | .deleteOp :: ops => instanceBracket false ops
  | .stopOp :: ops => instanceBracket b ops

theorem runLifeOps_instance (ops : List LifeOp) :
    ∀ s s' : AuxLife, runLifeOps s ops = .ok s' →
      (s.is_instance = true → s.transport_open = true) →
      s'.is_instance = instanceBracket s.is_instance ops ∧
        (s'.is_instance = true → s'.transport_open = true) := by
  induction ops with
  | nil =>
    intro s s' h hinv
    obtain rfl : s = s' := by
      simpa [runLifeOps] using h
    exact ⟨rfl, hinv⟩
  | cons op ops ih =>
    intro s s' h hinv
    cases op with
    | createOk =>
      exact ih ⟨true, true, true, true, true⟩ s' h (fun _ => rfl)
    | deleteOp =>
      exact ih { s with is_instance := false, transport_open := false } s' h
        (fun hfalse => by simp at hfalse)
    | stopOp =>
      by_cases hts : s.threads_spawned = true
      · have h' : runLifeOps { s with rx_alive := false, tx_alive := false } ops = .ok s' := by
          simpa [runLifeOps, applyLifeOp, hts] using h
        exact ih { s with rx_alive := false, tx_alive := false } s' h' hinv
      · exfalso
        simp [runLifeOps, applyLifeOp, hts] at h

/-- C9, amended. In every state reachable from a fresh auxiliary by
public lifecycle calls, `is_instance` is true iff the last
`create_instance`/`delete_instance` performed was `create_instance` — it
tracks the create/delete bracket, not thread liveness: `stop()` kills both
workers while leaving `is_instance` (and the open transport) untouched.
What survives of the claimed equivalence is one direction of one conjunct:
`is_instance = true` implies the transport is open. -/
theorem is_instance_tracks_create_delete_bracket (ops : List LifeOp) (s : AuxLife)
    (h : runLifeOps auxFresh ops = .ok s) :
    s.is_instance = instanceBracket false ops ∧
      (s.is_instance = true → s.transport_open = true) :=
  runLifeOps_instance ops auxFresh s h (fun hfalse => by simp [auxFresh] at hfalse)

/-- Witness for `is_instance_tracks_create_delete_bracket` on the sequence
`[create_instance]`. -/
theorem is_instance_tracks_create_delete_bracket_witness :
    runLifeOps auxFresh [LifeOp.createOk] = .ok ⟨true, true, true, true, true⟩ ∧
    ((true : Bool) = instanceBracket false [LifeOp.createOk] ∧
      ((true : Bool) = true → (true : Bool) = true)) :=
  ⟨rfl,
    is_instance_tracks_create_delete_bracket [LifeOp.createOk]
      ⟨true, true, true, true, true⟩ rfl⟩

/-! ## `create_instance` failure paths (`ComAux`)

`ComAux._create_auxiliary_instance` (lines 274-289) tries
`self.channel.open()`; on an exception it logs and calls `self.stop()`
*inside the handler*, then would return `False`.  But on a fresh instance
`stop()`'s `self.rx_thread.join()` touches an attribute that only
`create_instance` assigns (lines 83-84), so the handler itself raises
`AttributeError` and `DoubleThreadAuxiliary.create_instance` (lines 76-89,
no `try` around the hook) propagates it — the
`raise AuxiliaryCreationError(self.name)` of line 81 is never reached on
this path. -/

/-- Lifecycle state of a `ComAux`, with the stop flags the handler's
premature `stop()` sets before it crashes. -/
structure ComAuxState where
  is_instance : Bool
  channel_open : Bool
  rx_alive : Bool
  tx_alive : Bool
  threads_spawned : Bool
  stop_rx : Bool
  stop_tx : Bool
deriving DecidableEq, Repr

/-- A freshly constructed `ComAux`: `create_instance` never called. -/
def freshComAux : ComAuxState := ⟨false, false, false, false, false, false, false⟩

/-- Embedding of `DoubleThreadAuxiliary.stop` (lines 101-110) as invoked from the
exception handler of `_create_auxiliary_instance`: `run_command("stop")`
times out after 5 s (no command worker is running) and returns `None`;
both stop flags are set; then `self.rx_thread.join()` — on an instance
whose workers were never spawned the attribute does not exist, so
`AttributeError` is raised. -/
def stopFromHandler (s : ComAuxState) : Except PyError ComAuxState :=
  let s1 := { s with stop_rx := true, stop_tx := true }
  if s1.threads_spawned then .ok { s1 with rx_alive := false, tx_alive := false }
  else .error (.attributeError "rx_thread")

/-- Embedding of `ComAux._create_auxiliary_instance` (lines 274-289): try
`channel.open()`; on success return `True`, on an exception log and call
`self.stop()` (whose own exception propagates), then return `False`. -/
def comAuxCreateAuxiliaryInstance (openSucceeds : Bool) (s : ComAuxState) :
    Except PyError (Bool × ComAuxState) :=
  if openSucceeds then .ok (true, { s with channel_open := true })
  else
    match stopFromHandler s with
    | .ok s' => .ok (false, s')
    | .error e => .error e

/-- Embedding of `DoubleThreadAuxiliary.create_instance` (lines 76-89) with the
`ComAux` hook: call the hook; if it reports failure raise
`AuxiliaryCreationError(self.name)`; on success spawn both workers and set
`is_instance := True`. -/
def comAuxCreateInstance (openSucceeds : Bool) (name : String) (s : ComAuxState) :
    Except PyError ComAuxState :=
  match comAuxCreateAuxiliaryInstance openSucceeds s with
  | .error e => .error e
  | .ok (false, _) => .error (.auxiliaryCreationError name)
  | .ok (true, s') =>
    .ok { s' with rx_alive := true, tx_alive := true, threads_spawned := true,
                  is_instance := true }

/-- C4 (code bug). On a fresh `ComAux` whose `channel.open()` raises,
`create_instance` does raise — but it raises `AttributeError("rx_thread")`
from the handler's premature `stop()` (which joins worker threads that
were never spawned), not the `AuxiliaryCreationError` the claim and the
module's own error taxonomy prescribe; the `raise
AuxiliaryCreationError` line is unreachable on this path.  The rest of the
claim holds: no worker is spawned and `is_instance` stays false (the crash
happens before thread creation), and a hook that *returns* failure — as on
a `ComAux` whose earlier `create_instance` already spawned workers — does
produce `AuxiliaryCreationError`. -/
theorem create_instance_open_failure_raises_attribute_error :
    comAuxCreateInstance false "aux" freshComAux
      = .error (.attributeError "rx_thread") ∧
    comAuxCreateInstance false "aux"
        { freshComAux with threads_spawned := true, rx_alive := true, tx_alive := true }
      = .error (.auxiliaryCreationError "aux") :=
  ⟨rfl, rfl⟩

/-! ## Proxy construction (`ProxyAuxiliary.__init__` / `get_proxy_con`)

`get_proxy_con` (lines 417-460) resolves each subscriber reference: an
`AuxiliaryInterface` instance is compatibility-checked and its channel
taken; otherwise the alias is looked up in
`sys.modules["pykiso.auxiliaries.<alias>"]`; failing that, the code reads
`ConfigRegistry.get_auxes_alias()` — but `ConfigRegistry` is never
imported in `double_auxiliary.py`, so reaching that branch raises
`NameError` naming `ConfigRegistry` (the `log.error("... doesn't exist")`
fallback of line 458 is unreachable).  `_check_compatibility`
(lines 462-473) raises `NotImplementedError` for a subscriber whose
`is_proxy_capable` is false.  Worker threads are only created later, in
`create_instance`. -/

/-- A subscriber auxiliary as the proxy sees it: its name (used in the
`NotImplementedError` message), its `is_proxy_capable` flag and its
channel (identified by a number). -/
structure SubscriberAux where
  aux_name : String
  is_proxy_capable : Bool
  channel : Nat
deriving DecidableEq, Repr

/-- An entry of the proxy's `aux_list`: an already-constructed auxiliary
instance, or an alias to look up. -/
inductive AuxRef
  | inst (a : SubscriberAux)
  | byName (s : String)
deriving DecidableEq, Repr

/-- The resolution environment: the auxiliaries importable from
`sys.modules` as `pykiso.auxiliaries.<alias>`. -/
structure ResolutionEnv where
  modules : List (String × SubscriberAux)
deriving DecidableEq, Repr

/-- Embedding of `ProxyAuxiliary._check_compatibility` (lines 462-473): raise
`NotImplementedError` if `is_proxy_capable` is false. -/
def checkCompatibility (a : SubscriberAux) : Except PyError Unit :=
  if a.is_proxy_capable then .ok () else .error (.notImplementedError a.aux_name)

/-- Resolution of one `aux_list` entry inside `get_proxy_con`: an instance
is used as is; an alias is looked up in `sys.modules`; an alias not found
there reaches the `ConfigRegistry` branch, which raises `NameError`
because `ConfigRegistry` is not imported in the module. -/
def resolveRef (env : ResolutionEnv) : AuxRef → Except PyError SubscriberAux
  | .inst a => .ok a
  | .byName s =>
    match env.modules.lookup s with
    | some a => .ok a
    | none => .error (.nameError "ConfigRegistry")

/-- Embedding of `ProxyAuxiliary.get_proxy_con` (lines 417-460): resolve each entry in
order, compatibility-check it, and collect the channels. -/
def getProxyCon (env : ResolutionEnv) : List AuxRef → Except PyError (List Nat)
  | [] => .ok []
  | r :: rest =>
    match resolveRef env r with
    | .error e => .error e
    | .ok a =>
      match checkCompatibility a with
      | .error e => .error e
      | .ok _ =>
        match getProxyCon env rest with
        | .error e => .error e
        | .ok chs => .ok (a.channel :: chs)

/-- The result of `ProxyAuxiliary.__init__` (lines 349-366): the bound
channels in subscriber order.  `threads_created` records that construction
spawns no worker threads (they are created only by `create_instance`). -/
structure ProxyInit where
  proxy_channels : List Nat
  threads_created : Bool
deriving DecidableEq, Repr

/-- Embedding of `ProxyAuxiliary.__init__`: store the channel, resolve the subscriber
list through `get_proxy_con` (exceptions propagate to the constructor's
caller), and only then run the base constructor; no thread exists yet. -/
def proxyConstruct (env : ResolutionEnv) (aux_list : List AuxRef) :
    Except PyError ProxyInit :=
  match getProxyCon env aux_list with
  | .error e => .error e
  | .ok chs => .ok ⟨chs, false⟩

/-- Predicate `errMentions e n`: the exception `e` carries the name `n` in its
message (the claims require resolution errors to name the subscriber). -/
def errMentions : PyError → String → Bool
  | .auxiliaryCreationError m, s => m == s
  | .notImplementedError m, s => m == s
  | .nameError m, s => m == s
  | .attributeError m, s => m == s

/-- C6. Constructing a proxy over a subscriber list that contains a
reference resolving to an auxiliary with `is_proxy_capable = false` (all
references before it resolving to proxy-capable auxiliaries) raises the
incompatibility error (`NotImplementedError` naming that auxiliary) from
the constructor; and no successful construction ever creates a worker
thread — threads appear only in `create_instance`, which is unreachable
when the constructor raises. -/
theorem proxy_construction_rejects_incompatible (env : ResolutionEnv)
    (pre : List AuxRef) (r : AuxRef) (a : SubscriberAux) (post : List AuxRef)
    (hpre : ∀ x ∈ pre, ∃ b, resolveRef env x = .ok b ∧ b.is_proxy_capable = true)
    (hr : resolveRef env r = .ok a) (hcap : a.is_proxy_capable = false) :
    proxyConstruct env (pre ++ r :: post) = .error (.notImplementedError a.aux_name) ∧
    ∀ (env2 : ResolutionEnv) (l2 : List AuxRef) (res : ProxyInit),
      proxyConstruct env2 l2 = .ok res → res.threads_created = false := by
  constructor
  · have hcon : getProxyCon env (pre ++ r :: post)
        = .error (.notImplementedError a.aux_name) := by
      induction pre with
      | nil =>
        simp only [List.nil_append, getProxyCon, hr, checkCompatibility, hcap]
        rfl
      | cons x xs ih =>
        obtain ⟨b, hb, hbcap⟩ := hpre x (List.mem_cons_self x xs)
        have ihrec := ih (fun y hy => hpre y (List.mem_cons_of_mem x hy))
        simp only [List.cons_append, getProxyCon, hb, checkCompatibility, hbcap, if_pos]
        rw [show xs.append (r :: post) = xs ++ r :: post from rfl, ihrec]
    simp only [proxyConstruct, hcon]
  · intro env2 l2 res hres
    unfold proxyConstruct at hres
    cases hcon2 : getProxyCon env2 l2 with
    | error e => rw [hcon2] at hres; exact absurd hres (by simp)
    | ok chs =>
      rw [hcon2] at hres
      obtain rfl : (⟨chs, false⟩ : ProxyInit) = res := by
        simpa using hres
      rfl

/-- Witness for `proxy_construction_rejects_incompatible` with a single
non-proxy-capable subscriber instance. -/
theorem proxy_construction_rejects_incompatible_witness :
    resolveRef ⟨[]⟩ (AuxRef.inst ⟨"aux2", false, 1⟩) = .ok ⟨"aux2", false, 1⟩ ∧
    (⟨"aux2", false, 1⟩ : SubscriberAux).is_proxy_capable = false ∧
    proxyConstruct ⟨[]⟩ [AuxRef.inst ⟨"aux2", false, 1⟩]
      = .error (.notImplementedError "aux2") :=
  ⟨rfl, rfl,
    (proxy_construction_rejects_incompatible ⟨[]⟩ [] (AuxRef.inst ⟨"aux2", false, 1⟩)
      ⟨"aux2", false, 1⟩ [] (fun x hx => absurd hx (List.not_mem_nil x)) rfl rfl).1⟩

/-- C7, counterexample. An unresolvable subscriber name does make
`get_proxy_con` fail — but with `NameError` about the unimported
`ConfigRegistry`, an error that does not name the missing subscriber
`"ghost"` as the claim requires. -/
theorem unresolvable_subscriber_error_names_config_registry :
    getProxyCon ⟨[]⟩ [AuxRef.byName "ghost"] = .error (.nameError "ConfigRegistry") ∧
    errMentions (.nameError "ConfigRegistry") "ghost" = false :=
  ⟨rfl, rfl⟩

theorem getProxyCon_cons_err (env : ResolutionEnv) (r : AuxRef) (rest : List AuxRef)
    (e : PyError) (h : resolveRef env r = .error e) :
    getProxyCon env (r :: rest) = .error e := by
  simp only [getProxyCon, h]

theorem getProxyCon_cons_incompatible (env : ResolutionEnv) (r : AuxRef)
    (rest : List AuxRef) (a : SubscriberAux)
    (h : resolveRef env r = .ok a) (hcap : a.is_proxy_capable = false) :
    getProxyCon env (r :: rest) = .error (.notImplementedError a.aux_name) := by
  simp only [getProxyCon, h, checkCompatibility, hcap]
  rfl

theorem getProxyCon_cons_capable (env : ResolutionEnv) (r : AuxRef)
    (rest : List AuxRef) (a : SubscriberAux)
    (h : resolveRef env r = .ok a) (hcap : a.is_proxy_capable = true) :
    getProxyCon env (r :: rest)
      = (getProxyCon env rest).map (fun chs => a.channel :: chs) := by
  simp only [getProxyCon, h, checkCompatibility, hcap, if_pos]
  cases getProxyCon env rest <;> rfl

theorem getProxyCon_all_capable (env : ResolutionEnv) :
    ∀ l : List AuxRef,
      (∀ x ∈ l, ∃ b, resolveRef env x = .ok b ∧ b.is_proxy_capable = true) →
      ∃ chs, getProxyCon env l = .ok chs ∧ chs.length = l.length := by
  intro l
  induction l with
  | nil => exact fun _ => ⟨[], rfl, rfl⟩
  | cons r rest ih =>
    intro h
    obtain ⟨b, hb, hbcap⟩ := h r (List.mem_cons_self r rest)
    obtain ⟨chs, hchs, hlen⟩ := ih (fun y hy => h y (List.mem_cons_of_mem r hy))
    refine ⟨b.channel :: chs, ?_, by simp [hlen]⟩
    rw [getProxyCon_cons_capable env r rest b hb hbcap, hchs]
    rfl

theorem getProxyCon_append_ok (env : ResolutionEnv) :
    ∀ (l1 l2 : List AuxRef) (chs1 : List Nat), getProxyCon env l1 = .ok chs1 →
      getProxyCon env (l1 ++ l2) = (getProxyCon env l2).map (fun t => chs1 ++ t) := by
  intro l1
  induction l1 with
  | nil =>
    intro l2 chs1 h
    cases show (Except.ok [] : Except PyError (List Nat)) = .ok chs1 from h
    show getProxyCon env l2 = _
    cases getProxyCon env l2 <;> rfl
  | cons r l1 ih =>
    intro l2 chs1 h
    cases hres : resolveRef env r with
    | error e =>
      rw [getProxyCon_cons_err env r l1 e hres] at h
      exact Except.noConfusion h
    | ok a =>
      cases hcap : a.is_proxy_capable with
      | false =>
        rw [getProxyCon_cons_incompatible env r l1 a hres hcap] at h
        exact Except.noConfusion h
      | true =>
        rw [getProxyCon_cons_capable env r l1 a hres hcap] at h
        cases hrec : getProxyCon env l1 with
        | error e =>
          rw [hrec] at h
          exact Except.noConfusion h
        | ok chs' =>
          rw [hrec] at h
          cases show (Except.ok (a.channel :: chs') : Except PyError (List Nat))
              = .ok chs1 from h
          show getProxyCon env (r :: (l1 ++ l2)) = _
          rw [getProxyCon_cons_capable env r (l1 ++ l2) a hres hcap, ih l2 chs' hrec]
          cases getProxyCon env l2 <;> rfl

/-- C7, amended. Resolution of every subscriber reference (instance, or
name), at every position of the subscriber list (all references before it
resolving to proxy-capable auxiliaries): an instance resolves to itself
and a name found in `sys.modules` resolves to the registered auxiliary,
and such a proxy-capable auxiliary gets its channel bound at exactly that
subscriber's position of the successful resolution; a reference resolving
to a non-proxy-capable auxiliary makes `get_proxy_con` raise the
incompatibility error naming it; a name found nowhere resolves to the
`NameError` about the unimported `ConfigRegistry`, and any resolution
error aborts `get_proxy_con` — so an unresolvable name is never silently
skipped, but its error names `ConfigRegistry`, not the missing
subscriber. -/
theorem get_proxy_con_resolution_characterization
    (env : ResolutionEnv) (pre : List AuxRef) (r : AuxRef) (a : SubscriberAux)
    (s : String) (rest : List AuxRef)
    (hpre : ∀ x ∈ pre, ∃ b, resolveRef env x = .ok b ∧ b.is_proxy_capable = true) :
    resolveRef env (AuxRef.inst a) = .ok a ∧
    (env.modules.lookup s = some a → resolveRef env (AuxRef.byName s) = .ok a) ∧
    (env.modules.lookup s = none →
      resolveRef env (AuxRef.byName s) = .error (.nameError "ConfigRegistry")) ∧
    (resolveRef env r = .ok a → a.is_proxy_capable = true →
      (∀ x ∈ rest, ∃ b, resolveRef env x = .ok b ∧ b.is_proxy_capable = true) →
      ∃ chs, getProxyCon env (pre ++ r :: rest) = .ok chs ∧
        chs[pre.length]? = some a.channel) ∧
    (resolveRef env r = .ok a → a.is_proxy_capable = false →
      getProxyCon env (pre ++ r :: rest) = .error (.notImplementedError a.aux_name)) ∧
    (∀ e : PyError, resolveRef env r = .error e →
      getProxyCon env (pre ++ r :: rest) = .error e) := by
  obtain ⟨chs1, hchs1, hlen1⟩ := getProxyCon_all_capable env pre hpre
  refine ⟨rfl, fun h => by simp [resolveRef, h], fun h => by simp [resolveRef, h],
    fun hr hcap hrest => ?_, fun hr hcap => ?_, fun e hr => ?_⟩
  · obtain ⟨chsr, hchsr, _⟩ := getProxyCon_all_capable env rest hrest
    refine ⟨chs1 ++ a.channel :: chsr, ?_, ?_⟩
    · rw [getProxyCon_append_ok env pre (r :: rest) chs1 hchs1,
        getProxyCon_cons_capable env r rest a hr hcap, hchsr]
      rfl
    · rw [List.getElem?_append_right (by omega)]
      have hz : pre.length - chs1.length = 0 := by omega
      rw [hz]
      simp
  · rw [getProxyCon_append_ok env pre (r :: rest) chs1 hchs1,
      getProxyCon_cons_incompatible env r rest a hr hcap]
    rfl
  · rw [getProxyCon_append_ok env pre (r :: rest) chs1 hchs1,
      getProxyCon_cons_err env r rest e hr]
    rfl

/-- Witness for `get_proxy_con_resolution_characterization`: the prefix
holds a capable instance and a capable name resolved through
`sys.modules`; the reference under scrutiny is an unresolvable alias, and
the whole resolution aborts with the `ConfigRegistry` `NameError`. -/
theorem get_proxy_con_resolution_characterization_witness :
    resolveRef ⟨[("mod", ⟨"modaux", true, 2⟩)]⟩ (AuxRef.byName "ghost")
      = .error (.nameError "ConfigRegistry") ∧
    getProxyCon ⟨[("mod", ⟨"modaux", true, 2⟩)]⟩
        [AuxRef.inst ⟨"ok", true, 0⟩, AuxRef.byName "mod", AuxRef.byName "ghost"]
      = .error (.nameError "ConfigRegistry") :=
  ⟨rfl,
    (get_proxy_con_resolution_characterization ⟨[("mod", ⟨"modaux", true, 2⟩)]⟩
        [AuxRef.inst ⟨"ok", true, 0⟩, AuxRef.byName "mod"] (AuxRef.byName "ghost")
        ⟨"modaux", true, 2⟩ "mod" []
        (by
          intro x hx
          rcases List.mem_cons.mp hx with rfl | hx
          · exact ⟨⟨"ok", true, 0⟩, rfl, rfl⟩
          · rcases List.mem_cons.mp hx with rfl | hx
            · exact ⟨⟨"modaux", true, 2⟩, rfl, rfl⟩
            · exact absurd hx (List.not_mem_nil x))).2.2.2.2.2
      (.nameError "ConfigRegistry") rfl⟩

end Pykiso
